import Mathlib

/-!
Verification of the single-user todo-list manager (`todo.py`).

Python strings are modelled as `List Char`; `datetime` values as a record of
calendar fields; fallible operations (parsing, loading) return `Option`.
Interactive input is supplied as explicit parameters, and `datetime.now()`
becomes an explicit `now` parameter.  File contents are modelled as
`List Char` and the three task files as a `FileSystem` record.
-/

/-! ### Characters and digits -/

/-- The decimal digit characters used when Python renders an integer
(`f-string` interpolation of an `int`); values outside 0..9 never occur
on valid inputs. -/
def digitOf (k : Nat) : Char :=
  match k with
  | 0 => '0' | 1 => '1' | 2 => '2' | 3 => '3' | 4 => '4'
  | 5 => '5' | 6 => '6' | 7 => '7' | 8 => '8' | 9 => '9'
  | _ => '*'

/-- Numeric value of a decimal digit character. -/
def digitVal (c : Char) : Nat := c.toNat - 48

/-- Value of a most-significant-first digit string. -/
def digitsVal (cs : List Char) : Nat :=
  cs.foldl (fun a c => a * 10 + digitVal c) 0

/-- Decimal rendering of a natural number, most significant digit first;
the fuel argument only forces structural termination and is always
sufficient at the call site. -/
def natToCharsAux (fuel n : Nat) : List Char :=
  match fuel with
  | 0 => []
  | fuel + 1 =>
    if n < 10 then [digitOf n]
    else natToCharsAux fuel (n / 10) ++ [digitOf (n % 10)]

/-- Decimal rendering of a natural number, as Python renders a nonnegative
`int`. -/
def natToChars (n : Nat) : List Char := natToCharsAux (n + 1) n

/-- Decimal rendering of a Python `int` (arbitrary precision). -/
def intToChars (i : Int) : List Char :=
  if i < 0 then '-' :: natToChars i.natAbs else natToChars i.toNat

/-- The whitespace characters stripped by Python `str.strip()` (ASCII part). -/
def isPySpace (c : Char) : Bool :=
  c == ' ' || c == '\t' || c == '\n' || c == '\r' || c == '\x0b' || c == '\x0c'

/-- Python `str.strip()`: removes leading and trailing whitespace. -/
def pyStrip (s : List Char) : List Char :=
  ((s.dropWhile isPySpace).reverse.dropWhile isPySpace).reverse

/-- Python `str.split(sep)` for a one-character separator: splits the string
at every occurrence of the separator, keeping empty segments
(`"".split(c) = [""]`). -/
def splitChar (sep : Char) : List Char → List (List Char)
  | [] => [[]]
  | c :: cs =>
    if c = sep then [] :: splitChar sep cs
    else
      match splitChar sep cs with
      | [] => [[c]]
      | seg :: segs => (c :: seg) :: segs

/-- Iterating a Python text file yields its lines, each keeping its
terminating newline; a final line without a newline is also yielded. -/
def pyLines : List Char → List (List Char)
  | [] => []
  | c :: cs =>
    if c = '\n' then ['\n'] :: pyLines cs
    else
      match pyLines cs with
      | [] => [[c]]
      | l :: ls => (c :: l) :: ls

/-- All-digit check and value: Python `int(s)` after stripping, without a
sign.  `none` models the `ValueError` raised on malformed input. -/
def parseDigits (s : List Char) : Option Nat :=
  if s.isEmpty then none
  else if s.all Char.isDigit then some (digitsVal s) else none

/-- Python `int(s)`: strips whitespace, accepts an optional sign followed by
decimal digits; `none` models the `ValueError` on anything else.
(CPython additionally tolerates underscores between digits; the program
never produces such input.) -/
def pyInt (s0 : List Char) : Option Int :=
  match pyStrip s0 with
  | [] => none
  | c :: rest =>
    if c = '-' then
      match parseDigits rest with
      | none => none
      | some n => some (-(n : Int))
    else if c = '+' then
      match parseDigits rest with
      | none => none
      | some n => some ((n : Int))
    else
      match parseDigits (c :: rest) with
      | none => none
      | some n => some ((n : Int))

/-! ### Datetimes (`datetime.datetime`, naive values only) -/

/-- A naive Python `datetime.datetime` value. -/
structure PyDateTime where
  year : Nat
  month : Nat
  day : Nat
  hour : Nat
  minute : Nat
  second : Nat
  microsecond : Nat
deriving DecidableEq

/-- Gregorian leap-year test, as in `datetime`. -/
def isLeapYear (y : Nat) : Bool :=
  y % 4 == 0 && (y % 100 != 0 || y % 400 == 0)

/-- Days in a month, as validated by the `datetime` constructor. -/
def daysInMonth (y m : Nat) : Nat :=
  if m = 2 then (if isLeapYear y then 29 else 28)
  else if m = 4 ∨ m = 6 ∨ m = 9 ∨ m = 11 then 30 else 31

/-- The field ranges accepted by the `datetime.datetime` constructor
(`MINYEAR = 1`, `MAXYEAR = 9999`). -/
abbrev ValidDT (d : PyDateTime) : Prop :=
  1 ≤ d.year ∧ d.year ≤ 9999 ∧ 1 ≤ d.month ∧ d.month ≤ 12 ∧
  1 ≤ d.day ∧ d.day ≤ daysInMonth d.year d.month ∧
  d.hour ≤ 23 ∧ d.minute ≤ 59 ∧ d.second ≤ 59 ∧ d.microsecond ≤ 999999

/-- The `datetime` constructor: checks field ranges, raising (here `none`)
when out of range. -/
def mkDatetime (y mo d h mi s us : Nat) : Option PyDateTime :=
  if ValidDT (PyDateTime.mk y mo d h mi s us) then
    some (PyDateTime.mk y mo d h mi s us)
  else none

/-- Two-digit zero-padded decimal field, as in `datetime` text output. -/
def pad2 (n : Nat) : List Char := [digitOf (n / 10), digitOf (n % 10)]

/-- Four-digit zero-padded decimal field (the year). -/
def pad4 (n : Nat) : List Char :=
  [digitOf (n / 1000), digitOf (n / 100 % 10), digitOf (n / 10 % 10), digitOf (n % 10)]

/-- Six-digit zero-padded decimal field (the microseconds). -/
def pad6 (n : Nat) : List Char :=
  [digitOf (n / 100000), digitOf (n / 10000 % 10), digitOf (n / 1000 % 10),
   digitOf (n / 100 % 10), digitOf (n / 10 % 10), digitOf (n % 10)]

/-- Python `str(datetime)` = `isoformat(sep=' ')`:
`YYYY-MM-DD HH:MM:SS` with `.ffffff` appended exactly when the
microsecond field is nonzero. -/
def datetimeStr (d : PyDateTime) : List Char :=
  pad4 d.year ++ '-' :: pad2 d.month ++ '-' :: pad2 d.day ++
  ' ' :: pad2 d.hour ++ ':' :: pad2 d.minute ++ ':' :: pad2 d.second ++
  (if d.microsecond = 0 then [] else '.' :: pad6 d.microsecond)

/-- Read a two-digit decimal field from the front of a string. -/
def read2 (s : List Char) : Option (Nat × List Char) :=
  match s with
  | c1 :: c2 :: rest =>
    if c1.isDigit && c2.isDigit then
      some (10 * digitVal c1 + digitVal c2, rest)
    else none
  | _ => none

/-- Read a four-digit decimal field from the front of a string. -/
def read4 (s : List Char) : Option (Nat × List Char) :=
  match s with
  | c1 :: c2 :: c3 :: c4 :: rest =>
    if c1.isDigit && c2.isDigit && c3.isDigit && c4.isDigit then
      some (1000 * digitVal c1 + 100 * digitVal c2 + 10 * digitVal c3 + digitVal c4, rest)
    else none
  | _ => none

/-- Fractional-second digits after the dot: 3 or 6 digits, scaled to
microseconds (as accepted by `datetime.fromisoformat` before Python 3.11). -/
def readFrac (s : List Char) : Option Nat :=
  if s.length == 3 && s.all Char.isDigit then some (digitsVal s * 1000)
  else if s.length == 6 && s.all Char.isDigit then some (digitsVal s)
  else none

/-- The time-of-day part of `datetime.fromisoformat`:
`HH[:MM[:SS[.fff or .ffffff]]]` (timezone suffixes are not modelled;
the program never writes them). -/
def parseTimeStr (y mo dd : Nat) (t : List Char) : Option PyDateTime :=
  match read2 t with
  | none => none
  | some (h, r1) =>
    match r1 with
    | [] => mkDatetime y mo dd h 0 0 0
    | c :: r2 =>
      if c = ':' then
        match read2 r2 with
        | none => none
        | some (mi, r3) =>
          match r3 with
          | [] => mkDatetime y mo dd h mi 0 0
          | c2 :: r4 =>
            if c2 = ':' then
              match read2 r4 with
              | none => none
              | some (sec, r5) =>
                match r5 with
                | [] => mkDatetime y mo dd h mi sec 0
                | c3 :: r6 =>
                  if c3 = '.' then
                    match readFrac r6 with
                    | none => none
                    | some us => mkDatetime y mo dd h mi sec us
                  else none
            else none
      else none

/-- `datetime.fromisoformat` (Python ≤ 3.10 dialect, naive values):
`YYYY-MM-DD`, then optionally one separator character and a time of day.
Raising `ValueError` is modelled as `none`. -/
def fromisoformat (s : List Char) : Option PyDateTime :=
  match read4 s with
  | none => none
  | some (y, r1) =>
    match r1 with
    | c :: r2 =>
      if c = '-' then
        match read2 r2 with
        | none => none
        | some (mo, r3) =>
          match r3 with
          | c2 :: r4 =>
            if c2 = '-' then
              match read2 r4 with
              | none => none
              | some (dd, r5) =>
                match r5 with
                | [] => mkDatetime y mo dd 0 0 0 0
                | _ :: r6 => parseTimeStr y mo dd r6
            else none
          | [] => none
      else none
    | [] => none

/-- Chronological order on datetimes: Python compares field by field
lexicographically; for in-range fields this agrees with comparing the
radix encoding below. -/
def PyDateTime.key (d : PyDateTime) : Nat :=
  (((((d.year * 13 + d.month) * 32 + d.day) * 24 + d.hour) * 60 + d.minute) * 60
      + d.second) * 1000000 + d.microsecond

/-- `a` is at or before `b` in time. -/
def PyDateTime.le (a b : PyDateTime) : Prop := a.key ≤ b.key

instance (a b : PyDateTime) : Decidable (PyDateTime.le a b) := by
  unfold PyDateTime.le
  exact inferInstance

/-! ### The Task entity (`class Task`) -/

namespace Todo

/-- String constant `"Active"` (the default `task_status`). -/
def statusActive : List Char := "Active".toList

/-- String constant `"Completed"`. -/
def statusCompleted : List Char := "Completed".toList

/-- String constant `"Deleted"`. -/
def statusDeleted : List Char := "Deleted".toList

/-- String constant `"None"`, the rendering of an absent `time_finished`. -/
def noneLit : List Char := "None".toList

/-- A task record, mirroring the attributes set by `Task.__init__`. -/
structure Task where
  task_id : Int
  task_name : List Char
  task_status : List Char
  time_created : PyDateTime
  time_finished : Option PyDateTime
deriving DecidableEq

/-- `Task.to_string`: the pipe-separated line
`f"{id}|{name}|{status}|{created}|{finished}"`, where an absent
`time_finished` interpolates as the text `None`. -/
def Task.to_string (t : Task) : List Char :=
  intToChars t.task_id ++ '|' :: t.task_name ++ '|' :: t.task_status ++
  '|' :: datetimeStr t.time_created ++
  '|' :: (match t.time_finished with
          | none => noneLit
          | some f => datetimeStr f)

/-- The body of `Task.from_string` after `line.strip()`: split on `'|'`
into exactly five fields, parse the timestamps and the id, rebuild the
task.  Any `ValueError` (wrong field count, bad timestamp, bad int) is
modelled as `none`. -/
def Task.from_string_core (s : List Char) : Option Task :=
  match splitChar '|' s with
  | [idS, nameS, statusS, createdS, finishedS] =>
    match fromisoformat createdS with
    | none => none
    | some created =>
      match (if finishedS = noneLit then some none
             else match fromisoformat finishedS with
                  | none => none
                  | some f => some (some f)) with
      | none => none
      | some fin =>
        match pyInt idS with
        | none => none
        | some tid => some (Task.mk tid nameS statusS created fin)
  | _ => none

/-- `Task.from_string(line)`: strips the line, then parses it. -/
def Task.from_string (line : List Char) : Option Task :=
  Task.from_string_core (pyStrip line)

/-! ### The store (`class TodoListManager`) -/

/-- The in-memory state set up by `TodoListManager.__init__`. -/
structure TodoListManager where
  active_tasks : List Task
  completed_tasks : List Task
  deleted_tasks : List Task
  user_name : List Char
  next_task_id : Int
deriving DecidableEq

/-- The state produced by `TodoListManager.__init__`: three empty lists,
empty user name, `next_task_id = 1`. -/
def TodoListManager.new : TodoListManager :=
  TodoListManager.mk [] [] [] [] 1

/-- The contents of the three task files (`Active.txt`, `Completed.txt`,
`Deleted.txt`). -/
structure FileSystem where
  activeFile : List Char
  completedFile : List Char
  deletedFile : List Char
deriving DecidableEq

/-- `save_task_file`: one `to_string` line per task, each followed by a
newline, overwriting the file. -/
def save_task_file (tasks : List Task) : List Char :=
  (tasks.map (fun t => t.to_string ++ ['\n'])).flatten

/-- `save_tasks`: rewrites all three files in full. -/
def save_tasks (m : TodoListManager) : FileSystem :=
  FileSystem.mk (save_task_file m.active_tasks)
    (save_task_file m.completed_tasks) (save_task_file m.deleted_tasks)

/-- The Python `for` loop in `load_task_file`: parse each element,
propagating the first failure (an unhandled `ValueError` crashes the
load, modelled as `none`). -/
def mapOrNone (f : α → Option β) : List α → Option (List β)
  | [] => some []
  | x :: xs =>
    match f x with
    | none => none
    | some y =>
      match mapOrNone f xs with
      | none => none
      | some ys => some (y :: ys)

/-- `load_task_file`: read the file line by line, parsing each line as a
task.  (A missing file yields an empty list in the source; file presence
is not modelled — a `FileSystem` always provides contents.) -/
def load_task_file (content : List Char) : Option (List Task) :=
  mapOrNone Task.from_string (pyLines content)

/-- `load_tasks`: load the three category files. -/
def load_tasks (fs : FileSystem) : Option (List Task × List Task × List Task) :=
  match load_task_file fs.activeFile with
  | none => none
  | some a =>
    match load_task_file fs.completedFile with
    | none => none
    | some c =>
      match load_task_file fs.deletedFile with
      | none => none
      | some d => some (a, c, d)

/-- `max()` over a nonempty Python iterable (fold of binary `max` over the
remaining elements, seeded with the first). -/
def maxIds : List Int → Int
  | [] => 0
  | x :: xs => xs.foldl max x

/-- `update_next_task_id`: `1 + max(task_id)` over the concatenation of the
three lists, or `1` when there are no tasks. -/
def update_next_task_id (m : TodoListManager) : TodoListManager :=
  let all_tasks := m.active_tasks ++ m.completed_tasks ++ m.deleted_tasks
  if all_tasks.isEmpty then { m with next_task_id := 1 }
  else { m with next_task_id := maxIds (all_tasks.map Task.task_id) + 1 }

/-- Outcome of an interactive operation, identifying which message the
source prints (or that it returned silently on an empty active list). -/
inductive Outcome where
  | success
  | emptyReturn
  | invalidInput
  | notFound
deriving DecidableEq

/-- Replace the first element satisfying `p` (in-place mutation through the
reference returned by `next(...)` in the source). -/
def replaceFirstP (p : α → Bool) (f : α → α) : List α → List α
  | [] => []
  | x :: xs => if p x then f x :: xs else x :: replaceFirstP p f xs

/-- `add_task`: strip the entered name, construct
`Task(next_task_id, name)` (so `status="Active"`, `time_created=now`,
`time_finished=None`), append it to the active list, increment
`next_task_id`, save. -/
def add_task (m : TodoListManager) (_fs : FileSystem)
    (nameInput : List Char) (now : PyDateTime) : TodoListManager × FileSystem :=
  let t : Task := Task.mk m.next_task_id (pyStrip nameInput) statusActive now none
  let m2 : TodoListManager :=
    { m with active_tasks := m.active_tasks ++ [t],
             next_task_id := m.next_task_id + 1 }
  (m2, save_tasks m2)

/-- `edit_task_name`: return silently when the active list is empty;
otherwise parse the entered id (`ValueError` → "Invalid task ID!"), look
it up among the active tasks only, and on a hit mutate the task's name in
place (to the stripped new name) and save; on a miss print
"Task not found!". -/
def edit_task_name (m : TodoListManager) (fs : FileSystem)
    (idInput newNameInput : List Char) : (TodoListManager × FileSystem) × Outcome :=
  if m.active_tasks.isEmpty then ((m, fs), Outcome.emptyReturn)
  else
    match pyInt idInput with
    | none => ((m, fs), Outcome.invalidInput)
    | some tid =>
      match m.active_tasks.find? (fun t => t.task_id == tid) with
      | none => ((m, fs), Outcome.notFound)
      | some _ =>
        let newActive : List Task :=
          replaceFirstP (fun t => t.task_id == tid)
            (fun t => { t with task_name := pyStrip newNameInput })
            m.active_tasks
        let m2 : TodoListManager := { m with active_tasks := newActive }
        ((m2, save_tasks m2), Outcome.success)

/-- `mark_task_complete`: return silently when the active list is empty;
otherwise parse the entered id, look it up among the active tasks only,
and on a hit set `task_status = "Completed"` and `time_finished = now`,
append the (mutated) task to the completed list, remove it from the
active list, and save. -/
def mark_task_complete (m : TodoListManager) (fs : FileSystem)
    (idInput : List Char) (now : PyDateTime) : (TodoListManager × FileSystem) × Outcome :=
  if m.active_tasks.isEmpty then ((m, fs), Outcome.emptyReturn)
  else
    match pyInt idInput with
    | none => ((m, fs), Outcome.invalidInput)
    | some tid =>
      match m.active_tasks.find? (fun t => t.task_id == tid) with
      | none => ((m, fs), Outcome.notFound)
      | some t =>
        let t2 : Task := { t with task_status := statusCompleted, time_finished := some now }
        let m2 : TodoListManager :=
          { m with active_tasks := m.active_tasks.eraseP (fun u => u.task_id == tid),
                   completed_tasks := m.completed_tasks ++ [t2] }
        ((m2, save_tasks m2), Outcome.success)

/-- `delete_task`: return silently when the active list is empty; otherwise
parse the entered id, look it up among the active tasks only, and on a
hit set `task_status = "Deleted"` (leaving `time_finished` as-is), append
the task to the deleted list, remove it from the active list, and save. -/
def delete_task (m : TodoListManager) (fs : FileSystem)
    (idInput : List Char) : (TodoListManager × FileSystem) × Outcome :=
  if m.active_tasks.isEmpty then ((m, fs), Outcome.emptyReturn)
  else
    match pyInt idInput with
    | none => ((m, fs), Outcome.invalidInput)
    | some tid =>
      match m.active_tasks.find? (fun t => t.task_id == tid) with
      | none => ((m, fs), Outcome.notFound)
      | some t =>
        let t2 : Task := { t with task_status := statusDeleted }
        let m2 : TodoListManager :=
          { m with active_tasks := m.active_tasks.eraseP (fun u => u.task_id == tid),
                   deleted_tasks := m.deleted_tasks ++ [t2] }
        ((m2, save_tasks m2), Outcome.success)

/-- One documented mutating menu operation together with its interactive
inputs and the wall-clock time at which it runs. -/
inductive Op where
  | addOp (nameInput : List Char) (now : PyDateTime)
  | renameOp (idInput newNameInput : List Char)
  | completeOp (idInput : List Char) (now : PyDateTime)
  | deleteOp (idInput : List Char)

/-- Run one operation on the store and the files. -/
def applyOp (s : TodoListManager × FileSystem) : Op → TodoListManager × FileSystem
  | Op.addOp n now => add_task s.1 s.2 n now
  | Op.renameOp i n => (edit_task_name s.1 s.2 i n).1
  | Op.completeOp i now => (mark_task_complete s.1 s.2 i now).1
  | Op.deleteOp i => (delete_task s.1 s.2 i).1

/-- Run a sequence of operations. -/
def applyOps (s : TodoListManager × FileSystem) (ops : List Op) :
    TodoListManager × FileSystem :=
  ops.foldl applyOp s

/-- All tasks of the store, in category order. -/
def allTasks (m : TodoListManager) : List Task :=
  m.active_tasks ++ m.completed_tasks ++ m.deleted_tasks

/-- The ids of all tasks of the store. -/
def idsOf (m : TodoListManager) : List Int :=
  (allTasks m).map Task.task_id

/-- The id discipline: pairwise-distinct ids, all below the next-id
counter. -/
def GoodIds (m : TodoListManager) : Prop :=
  (idsOf m).Nodup ∧ ∀ i ∈ idsOf m, i < m.next_task_id

instance (m : TodoListManager) : Decidable (GoodIds m) := by
  unfold GoodIds
  exact inferInstance

/-- A task that survives the text encoding: its name avoids the delimiter
and the line terminator, its status is one of the three legal statuses,
and its timestamps are constructor-valid. -/
def StorableTask (t : Task) : Prop :=
  '|' ∉ t.task_name ∧ '\n' ∉ t.task_name ∧
  (t.task_status = statusActive ∨ t.task_status = statusCompleted ∨
    t.task_status = statusDeleted) ∧
  ValidDT t.time_created ∧ ∀ f ∈ t.time_finished, ValidDT f

instance (t : Task) : Decidable (StorableTask t) := by
  unfold StorableTask
  exact inferInstance


/-- The characters that can occur in a rendered timestamp or integer:
digits, the `digitOf` fallback, and the punctuation of the ISO format.
None of them is a pipe or a newline. -/
def allowedChar (c : Char) : Bool :=
  c.isDigit || c == '*' || c == '-' || c == ' ' || c == ':' || c == '.'

/-! ### Helper lemmas: digits and characters -/

theorem digitOf_class (k : Nat) : (digitOf k).isDigit = true ∨ digitOf k = '*' := by
  unfold digitOf
  split <;> simp

theorem isDigit_digitOf {k : Nat} (h : k < 10) : (digitOf k).isDigit = true := by
  interval_cases k <;> decide

theorem digitVal_digitOf {k : Nat} (h : k < 10) : digitVal (digitOf k) = k := by
  interval_cases k <;> decide

theorem isPySpace_of_isDigit {c : Char} (h : c.isDigit = true) : isPySpace c = false := by
  simp only [isPySpace, Bool.or_eq_false_iff, beq_eq_false_iff_ne]
  refine ⟨⟨⟨⟨⟨?_, ?_⟩, ?_⟩, ?_⟩, ?_⟩, ?_⟩ <;> rintro rfl <;> exact absurd h (by decide)

theorem ne_pipe_of_isDigit {c : Char} (h : c.isDigit = true) : c ≠ '|' := by
  rintro rfl; exact absurd h (by decide)

theorem ne_nl_of_isDigit {c : Char} (h : c.isDigit = true) : c ≠ '\n' := by
  rintro rfl; exact absurd h (by decide)

theorem ne_minus_of_isDigit {c : Char} (h : c.isDigit = true) : c ≠ '-' := by
  rintro rfl; exact absurd h (by decide)

theorem ne_plus_of_isDigit {c : Char} (h : c.isDigit = true) : c ≠ '+' := by
  rintro rfl; exact absurd h (by decide)

theorem isPySpace_digitOf (k : Nat) : isPySpace (digitOf k) = false := by
  rcases digitOf_class k with h | h
  · exact isPySpace_of_isDigit h
  · rw [h]; decide

theorem digitOf_ne_pipe (k : Nat) : digitOf k ≠ '|' := by
  rcases digitOf_class k with h | h
  · exact ne_pipe_of_isDigit h
  · rw [h]; decide

theorem digitOf_ne_nl (k : Nat) : digitOf k ≠ '\n' := by
  rcases digitOf_class k with h | h
  · exact ne_nl_of_isDigit h
  · rw [h]; decide

/-! ### Helper lemmas: strip -/

theorem dropWhile_eq_self_of_head {p : Char → Bool} {l : List Char}
    (h : ∀ a, l.head? = some a → p a = false) : l.dropWhile p = l := by
  cases l with
  | nil => rfl
  | cons a t => rw [List.dropWhile_cons, h a rfl]; simp

theorem pyStrip_eq_self {l : List Char}
    (hh : ∀ a, l.head? = some a → isPySpace a = false)
    (hl : ∀ a, l.getLast? = some a → isPySpace a = false) : pyStrip l = l := by
  unfold pyStrip
  have h1 : List.dropWhile isPySpace l = l := dropWhile_eq_self_of_head hh
  have h2 : List.dropWhile isPySpace l.reverse = l.reverse :=
    dropWhile_eq_self_of_head
      (by intro a ha; exact hl a (by rwa [List.head?_reverse] at ha))
  rw [h1, h2, List.reverse_reverse]

theorem pyStrip_append_newline {l : List Char} (hne : l ≠ [])
    (hh : ∀ a, l.head? = some a → isPySpace a = false)
    (hl : ∀ a, l.getLast? = some a → isPySpace a = false) :
    pyStrip (l ++ ['\n']) = l := by
  unfold pyStrip
  have h1 : List.dropWhile isPySpace (l ++ ['\n']) = l ++ ['\n'] :=
    dropWhile_eq_self_of_head
      (by intro a ha; rw [List.head?_append_of_ne_nil _ hne] at ha; exact hh a ha)
  have h2 : List.dropWhile isPySpace l.reverse = l.reverse :=
    dropWhile_eq_self_of_head
      (by intro a ha; exact hl a (by rwa [List.head?_reverse] at ha))
  rw [h1, List.reverse_append]
  show (List.dropWhile isPySpace ('\n' :: l.reverse)).reverse = l
  rw [List.dropWhile_cons, if_pos (by decide), h2, List.reverse_reverse]

/-! ### Helper lemmas: split and lines -/

theorem splitChar_of_not_mem {sep : Char} {l : List Char} (h : sep ∉ l) :
    splitChar sep l = [l] := by
  induction l with
  | nil => rfl
  | cons c cs ih =>
    have hc : ¬(c = sep) := fun e => h (e ▸ List.mem_cons_self c cs)
    have hcs : sep ∉ cs := fun m => h (List.mem_cons_of_mem c m)
    rw [splitChar, if_neg hc, ih hcs]

theorem splitChar_append {sep : Char} {a r : List Char} (h : sep ∉ a) :
    splitChar sep (a ++ sep :: r) = a :: splitChar sep r := by
  induction a with
  | nil => simp [splitChar]
  | cons c cs ih =>
    have hc : ¬(c = sep) := fun e => h (e ▸ List.mem_cons_self c cs)
    have hcs : sep ∉ cs := fun m => h (List.mem_cons_of_mem c m)
    rw [List.cons_append, splitChar, if_neg hc, ih hcs]

theorem pyLines_append {a r : List Char} (h : '\n' ∉ a) :
    pyLines (a ++ '\n' :: r) = (a ++ ['\n']) :: pyLines r := by
  induction a with
  | nil => simp [pyLines]
  | cons c cs ih =>
    have hc : ¬(c = '\n') := fun e => h (e ▸ List.mem_cons_self c cs)
    have hcs : '\n' ∉ cs := fun m => h (List.mem_cons_of_mem c m)
    rw [List.cons_append, pyLines, if_neg hc, ih hcs]
    rfl

/-! ### Helper lemmas: integer printing and parsing -/

theorem natToChars_ne_nil (n : Nat) : natToChars n ≠ [] := by
  rw [natToChars, natToCharsAux]
  split
  · simp
  · simp

theorem mem_natToCharsAux {c : Char} {fuel n : Nat} (h : c ∈ natToCharsAux fuel n) :
    ∃ k, k < 10 ∧ c = digitOf k := by
  induction fuel generalizing n with
  | zero => cases h
  | succ fuel ih =>
    rw [natToCharsAux] at h
    split at h
    · exact ⟨n, by omega, by simpa using h⟩
    · rcases List.mem_append.mp h with h1 | h2
      · exact ih h1
      · exact ⟨n % 10, by omega, by simpa using h2⟩

theorem mem_natToChars {c : Char} {n : Nat} (h : c ∈ natToChars n) :
    ∃ k, k < 10 ∧ c = digitOf k :=
  mem_natToCharsAux h

theorem natToChars_all_digits {c : Char} {n : Nat} (h : c ∈ natToChars n) :
    c.isDigit = true := by
  obtain ⟨k, hk, rfl⟩ := mem_natToChars h
  exact isDigit_digitOf hk

theorem digitsVal_append_singleton (l : List Char) (c : Char) :
    digitsVal (l ++ [c]) = digitsVal l * 10 + digitVal c := by
  simp [digitsVal, List.foldl_append]

theorem digitsVal_natToCharsAux {fuel n : Nat} (h : n < 10 ^ fuel) :
    digitsVal (natToCharsAux fuel n) = n := by
  induction fuel generalizing n with
  | zero =>
    have : n = 0 := by simpa using h
    simp [natToCharsAux, digitsVal, this]
  | succ fuel ih =>
    rw [natToCharsAux]
    split
    · simp [digitsVal, digitVal_digitOf (by omega : n < 10)]
    · have hdiv : n / 10 < 10 ^ fuel := by
        rw [Nat.div_lt_iff_lt_mul (by norm_num)]
        calc n < 10 ^ (fuel + 1) := h
          _ = 10 ^ fuel * 10 := by rw [Nat.pow_succ]
      rw [digitsVal_append_singleton, ih hdiv, digitVal_digitOf (by omega)]
      omega

theorem digitsVal_natToChars (n : Nat) : digitsVal (natToChars n) = n := by
  have hn : n < 10 ^ (n + 1) := by
    calc n < 2 ^ n := Nat.lt_two_pow n
      _ ≤ 10 ^ n := Nat.pow_le_pow_left (by norm_num) n
      _ ≤ 10 ^ (n + 1) := Nat.pow_le_pow_right (by norm_num) (by omega)
  exact digitsVal_natToCharsAux hn

theorem parseDigits_natToChars (n : Nat) : parseDigits (natToChars n) = some n := by
  unfold parseDigits
  rw [if_neg (by simp [List.isEmpty_iff, natToChars_ne_nil]),
    if_pos (List.all_eq_true.mpr (fun c hc => natToChars_all_digits hc)),
    digitsVal_natToChars]

theorem mem_intToChars {c : Char} {i : Int} (h : c ∈ intToChars i) :
    c.isDigit = true ∨ c = '-' := by
  unfold intToChars at h
  split at h
  · rcases List.mem_cons.mp h with rfl | h
    · exact Or.inr rfl
    · exact Or.inl (natToChars_all_digits h)
  · exact Or.inl (natToChars_all_digits h)

theorem pyStrip_intToChars (i : Int) : pyStrip (intToChars i) = intToChars i := by
  have key : ∀ c ∈ intToChars i, isPySpace c = false := by
    intro c hc
    rcases mem_intToChars hc with h | rfl
    · exact isPySpace_of_isDigit h
    · decide
  refine pyStrip_eq_self ?_ ?_
  · intro a ha
    exact key a (List.mem_of_mem_head? ha)
  · intro a ha
    exact key a (List.mem_of_mem_getLast? ha)

theorem pyInt_intToChars (i : Int) : pyInt (intToChars i) = some i := by
  rw [pyInt, pyStrip_intToChars]
  by_cases hi : i < 0
  · rw [intToChars, if_pos hi]
    simp only [if_pos rfl, parseDigits_natToChars]
    show some (-(i.natAbs : Int)) = some i
    congr 1
    omega
  · rw [intToChars, if_neg hi]
    obtain ⟨c, cs, hcons⟩ := List.exists_cons_of_ne_nil (natToChars_ne_nil i.toNat)
    have hcd : c.isDigit = true :=
      natToChars_all_digits (show c ∈ natToChars i.toNat by
        rw [hcons]; exact List.mem_cons_self c cs)
    rw [hcons]
    simp only [if_neg (ne_minus_of_isDigit hcd), if_neg (ne_plus_of_isDigit hcd),
      ← hcons, parseDigits_natToChars]
    show some ((i.toNat : Int)) = some i
    congr 1
    omega

/-! ### Helper lemmas: datetime printing and parsing -/

theorem read2_pad2 {n : Nat} (h : n < 100) (r : List Char) :
    read2 (pad2 n ++ r) = some (n, r) := by
  have h1 : n / 10 < 10 := by omega
  have h2 : n % 10 < 10 := by omega
  rw [pad2]
  show read2 (digitOf (n / 10) :: digitOf (n % 10) :: r) = some (n, r)
  rw [read2, if_pos (by simp [isDigit_digitOf h1, isDigit_digitOf h2])]
  rw [digitVal_digitOf h1, digitVal_digitOf h2]
  have e : 10 * (n / 10) + n % 10 = n := by omega
  rw [e]

theorem read4_pad4 {n : Nat} (h : n < 10000) (r : List Char) :
    read4 (pad4 n ++ r) = some (n, r) := by
  have h1 : n / 1000 < 10 := by omega
  have h2 : n / 100 % 10 < 10 := by omega
  have h3 : n / 10 % 10 < 10 := by omega
  have h4 : n % 10 < 10 := by omega
  rw [pad4]
  show read4 (digitOf (n / 1000) :: digitOf (n / 100 % 10) :: digitOf (n / 10 % 10) ::
    digitOf (n % 10) :: r) = some (n, r)
  rw [read4, if_pos (by
    simp [isDigit_digitOf h1, isDigit_digitOf h2, isDigit_digitOf h3, isDigit_digitOf h4])]
  rw [digitVal_digitOf h1, digitVal_digitOf h2, digitVal_digitOf h3, digitVal_digitOf h4]
  have e : 1000 * (n / 1000) + 100 * (n / 100 % 10) + 10 * (n / 10 % 10) + n % 10 = n := by
    omega
  rw [e]

theorem pad6_length (n : Nat) : (pad6 n).length = 6 := by
  simp [pad6]

theorem pad6_all_digits {n : Nat} (h : n < 1000000) : (pad6 n).all Char.isDigit = true := by
  have h1 : n / 100000 < 10 := by omega
  simp [pad6, isDigit_digitOf, h1, Nat.mod_lt]

theorem digitsVal_pad6 {n : Nat} (h : n < 1000000) : digitsVal (pad6 n) = n := by
  have h1 : n / 100000 < 10 := by omega
  simp only [pad6, digitsVal, List.foldl_cons, List.foldl_nil]
  rw [digitVal_digitOf h1, digitVal_digitOf (by omega), digitVal_digitOf (by omega),
    digitVal_digitOf (by omega), digitVal_digitOf (by omega), digitVal_digitOf (by omega)]
  omega

theorem daysInMonth_le (y m : Nat) : daysInMonth y m ≤ 31 := by
  unfold daysInMonth
  split
  · split <;> omega
  · split <;> omega

theorem read2_pad2_nil {n : Nat} (h : n < 100) : read2 (pad2 n) = some (n, []) := by
  have e := read2_pad2 h []
  rwa [List.append_nil] at e

theorem fromisoformat_datetimeStr {d : PyDateTime} (h : ValidDT d) :
    fromisoformat (datetimeStr d) = some d := by
  obtain ⟨y, mo, dd, hh, mi, ss, us⟩ := d
  have hb : 1 ≤ y ∧ y ≤ 9999 ∧ 1 ≤ mo ∧ mo ≤ 12 ∧ 1 ≤ dd ∧ dd ≤ daysInMonth y mo ∧
      hh ≤ 23 ∧ mi ≤ 59 ∧ ss ≤ 59 ∧ us ≤ 999999 := h
  obtain ⟨hy1, hy2, hmo1, hmo2, hd1, hd2, hhh, hmi, hs, hus⟩ := hb
  by_cases hz : us = 0
  · subst hz
    have hv : ValidDT (PyDateTime.mk y mo dd hh mi ss 0) :=
      ⟨hy1, hy2, hmo1, hmo2, hd1, hd2, hhh, hmi, hs, by omega⟩
    simp [fromisoformat, datetimeStr, parseTimeStr, mkDatetime, hv,
      read4_pad4 (show y < 10000 by omega),
      read2_pad2 (show mo < 100 by omega),
      read2_pad2 (show dd < 100 by have := daysInMonth_le y mo; omega),
      read2_pad2 (show hh < 100 by omega),
      read2_pad2 (show mi < 100 by omega),
      read2_pad2_nil (show ss < 100 by omega)]
  · have hv : ValidDT (PyDateTime.mk y mo dd hh mi ss us) :=
      ⟨hy1, hy2, hmo1, hmo2, hd1, hd2, hhh, hmi, hs, hus⟩
    simp [fromisoformat, datetimeStr, parseTimeStr, mkDatetime, hv, hz, readFrac,
      pad6_length, pad6_all_digits (show us < 1000000 by omega),
      digitsVal_pad6 (show us < 1000000 by omega),
      read4_pad4 (show y < 10000 by omega),
      read2_pad2 (show mo < 100 by omega),
      read2_pad2 (show dd < 100 by have := daysInMonth_le y mo; omega),
      read2_pad2 (show hh < 100 by omega),
      read2_pad2 (show mi < 100 by omega),
      read2_pad2 (show ss < 100 by omega)]

/-! ### Helper lemmas: character classes of rendered fields -/

theorem allowedChar_digitOf (k : Nat) : allowedChar (digitOf k) = true := by
  rcases digitOf_class k with h | h
  · simp [allowedChar, h]
  · simp [allowedChar, h]

theorem allowed_ne_pipe_nl {c : Char} (h : allowedChar c = true) : c ≠ '|' ∧ c ≠ '\n' := by
  simp only [allowedChar, Bool.or_eq_true, beq_iff_eq] at h
  rcases h with ((((h | rfl) | rfl) | rfl) | rfl) | rfl
  · exact ⟨ne_pipe_of_isDigit h, ne_nl_of_isDigit h⟩
  all_goals exact ⟨by decide, by decide⟩

theorem datetimeStr_all_allowed (d : PyDateTime) :
    (datetimeStr d).all allowedChar = true := by
  by_cases hz : d.microsecond = 0 <;>
    simp [datetimeStr, hz, pad4, pad2, pad6, allowedChar_digitOf, List.all_append] <;>
    decide

theorem datetimeStr_no_pipe {d : PyDateTime} : '|' ∉ datetimeStr d := by
  intro hm
  exact (allowed_ne_pipe_nl (List.all_eq_true.mp (datetimeStr_all_allowed d) _ hm)).1 rfl

theorem datetimeStr_no_nl {d : PyDateTime} : '\n' ∉ datetimeStr d := by
  intro hm
  exact (allowed_ne_pipe_nl (List.all_eq_true.mp (datetimeStr_all_allowed d) _ hm)).2 rfl

theorem intToChars_no_pipe {i : Int} : '|' ∉ intToChars i := by
  intro hm
  rcases mem_intToChars hm with h | h
  · exact absurd h (by decide)
  · exact absurd h (by decide)

theorem intToChars_no_nl {i : Int} : '\n' ∉ intToChars i := by
  intro hm
  rcases mem_intToChars hm with h | h
  · exact absurd h (by decide)
  · exact absurd h (by decide)

theorem noneLit_no_pipe : '|' ∉ noneLit := by decide

theorem noneLit_eq : noneLit = ['N', 'o', 'n', 'e'] := rfl

theorem datetimeStr_ne_noneLit (d : PyDateTime) : datetimeStr d ≠ noneLit := by
  intro e
  have hl := congrArg List.length e
  by_cases hz : d.microsecond = 0 <;>
    simp [datetimeStr, pad4, pad2, pad6, noneLit_eq, hz] at hl

/-! ### Helper lemmas: round-trip of the task line encoding -/

theorem from_string_core_to_string {t : Task} (hpipe : '|' ∉ t.task_name)
    (hstat : t.task_status = statusActive ∨ t.task_status = statusCompleted ∨
      t.task_status = statusDeleted)
    (hcr : ValidDT t.time_created)
    (hfin : ∀ f ∈ t.time_finished, ValidDT f) :
    Task.from_string_core (Task.to_string t) = some t := by
  obtain ⟨i, nm, st, cr, fin⟩ := t
  have hstat' : st = statusActive ∨ st = statusCompleted ∨ st = statusDeleted := hstat
  have hfin' : ∀ f ∈ fin, ValidDT f := hfin
  have hstp : '|' ∉ st := by
    rcases hstat' with h | h | h <;> (rw [h]; decide)
  have hnmp : '|' ∉ nm := hpipe
  have hcr' : ValidDT cr := hcr
  cases fin with
  | none =>
    have hts : Task.to_string (Task.mk i nm st cr none) =
        intToChars i ++ '|' :: (nm ++ '|' :: (st ++ '|' :: (datetimeStr cr ++
          '|' :: noneLit))) := by
      simp [Task.to_string, List.append_assoc]
    rw [Task.from_string_core, hts, splitChar_append intToChars_no_pipe,
      splitChar_append hnmp, splitChar_append hstp,
      splitChar_append datetimeStr_no_pipe, splitChar_of_not_mem noneLit_no_pipe]
    simp [fromisoformat_datetimeStr hcr', pyInt_intToChars]
  | some f =>
    have hf : ValidDT f := hfin' f rfl
    have hts : Task.to_string (Task.mk i nm st cr (some f)) =
        intToChars i ++ '|' :: (nm ++ '|' :: (st ++ '|' :: (datetimeStr cr ++
          '|' :: datetimeStr f))) := by
      simp [Task.to_string, List.append_assoc]
    rw [Task.from_string_core, hts, splitChar_append intToChars_no_pipe,
      splitChar_append hnmp, splitChar_append hstp,
      splitChar_append datetimeStr_no_pipe,
      splitChar_of_not_mem (@datetimeStr_no_pipe f)]
    simp [fromisoformat_datetimeStr hcr', fromisoformat_datetimeStr hf,
      datetimeStr_ne_noneLit f, pyInt_intToChars]

/-! ### Helper lemmas: the encoded line has no surrounding whitespace -/

theorem intToChars_head_cons (i : Int) :
    ∃ c cs, intToChars i = c :: cs ∧ isPySpace c = false := by
  rw [intToChars]
  by_cases hi : i < 0
  · rw [if_pos hi]
    exact ⟨'-', natToChars i.natAbs, rfl, by decide⟩
  · rw [if_neg hi]
    obtain ⟨c, cs, hcons⟩ := List.exists_cons_of_ne_nil (natToChars_ne_nil i.toNat)
    have hcd : c.isDigit = true :=
      natToChars_all_digits (show c ∈ natToChars i.toNat by
        rw [hcons]; exact List.mem_cons_self c cs)
    exact ⟨c, cs, hcons, isPySpace_of_isDigit hcd⟩

theorem to_string_ne_nil (t : Task) : Task.to_string t ≠ [] := by
  obtain ⟨c, cs, hcons, _⟩ := intToChars_head_cons t.task_id
  rw [Task.to_string, hcons]
  simp

theorem to_string_head_nonspace (t : Task) :
    ∀ a, (Task.to_string t).head? = some a → isPySpace a = false := by
  intro a ha
  obtain ⟨c, cs, hcons, hc⟩ := intToChars_head_cons t.task_id
  rw [Task.to_string, hcons] at ha
  simp only [List.cons_append, List.head?_cons, Option.some.injEq] at ha
  rw [← ha]
  exact hc

theorem datetimeStr_getLast (d : PyDateTime) :
    ∃ k, k < 10 ∧ (datetimeStr d).getLast? = some (digitOf k) := by
  by_cases hz : d.microsecond = 0
  · refine ⟨d.second % 10, by omega, ?_⟩
    rw [← List.head?_reverse]
    simp [datetimeStr, hz, pad2, pad4, List.reverse_append]
  · refine ⟨d.microsecond % 10, by omega, ?_⟩
    rw [← List.head?_reverse]
    simp [datetimeStr, hz, pad2, pad4, pad6, List.reverse_append]

theorem to_string_getLast_nonspace (t : Task) :
    ∀ a, (Task.to_string t).getLast? = some a → isPySpace a = false := by
  intro a ha
  rw [Task.to_string] at ha
  cases hfin : t.time_finished with
  | none =>
    rw [hfin] at ha
    rw [List.getLast?_append_of_ne_nil _ (List.cons_ne_nil _ _)] at ha
    have he : (('|' :: noneLit) : List Char).getLast? = some 'e' := by decide
    rw [he, Option.some.injEq] at ha
    rw [← ha]
    decide
  | some f =>
    obtain ⟨k, hk, hlast⟩ := datetimeStr_getLast f
    have hne : datetimeStr f ≠ [] := by
      intro e
      rw [e] at hlast
      cases hlast
    rw [hfin] at ha
    rw [List.getLast?_append_of_ne_nil _ (List.cons_ne_nil _ _),
      show ('|' :: datetimeStr f) = ['|'] ++ datetimeStr f from rfl,
      List.getLast?_append_of_ne_nil _ hne, hlast, Option.some.injEq] at ha
    rw [← ha]
    exact isPySpace_digitOf k

/-! ### Helper lemmas: full line round trip -/

theorem from_string_to_string {t : Task} (hpipe : '|' ∉ t.task_name)
    (hstat : t.task_status = statusActive ∨ t.task_status = statusCompleted ∨
      t.task_status = statusDeleted)
    (hcr : ValidDT t.time_created)
    (hfin : ∀ f ∈ t.time_finished, ValidDT f) :
    Task.from_string (Task.to_string t) = some t := by
  rw [Task.from_string,
    pyStrip_eq_self (to_string_head_nonspace t) (to_string_getLast_nonspace t)]
  exact from_string_core_to_string hpipe hstat hcr hfin

theorem from_string_to_string_nl {t : Task} (hpipe : '|' ∉ t.task_name)
    (hstat : t.task_status = statusActive ∨ t.task_status = statusCompleted ∨
      t.task_status = statusDeleted)
    (hcr : ValidDT t.time_created)
    (hfin : ∀ f ∈ t.time_finished, ValidDT f) :
    Task.from_string (Task.to_string t ++ ['\n']) = some t := by
  rw [Task.from_string,
    pyStrip_append_newline (to_string_ne_nil t) (to_string_head_nonspace t)
      (to_string_getLast_nonspace t)]
  exact from_string_core_to_string hpipe hstat hcr hfin

/-! ### Helper lemmas: save and load of whole files -/

theorem to_string_no_nl {t : Task} (hnm : '\n' ∉ t.task_name)
    (hstat : t.task_status = statusActive ∨ t.task_status = statusCompleted ∨
      t.task_status = statusDeleted) :
    '\n' ∉ Task.to_string t := by
  intro hm
  rw [Task.to_string] at hm
  simp only [List.mem_append] at hm
  rcases hm with (((hA | hB) | hC) | hD) | hE
  · exact intToChars_no_nl hA
  · rcases List.mem_cons.mp hB with he | hB
    · exact absurd he (by decide)
    · exact hnm hB
  · rcases List.mem_cons.mp hC with he | hC
    · exact absurd he (by decide)
    · rcases hstat with h | h | h <;> (rw [h] at hC; exact absurd hC (by decide))
  · rcases List.mem_cons.mp hD with he | hD
    · exact absurd he (by decide)
    · exact datetimeStr_no_nl hD
  · rcases List.mem_cons.mp hE with he | hE
    · exact absurd he (by decide)
    · cases hfin : t.time_finished with
      | none =>
        rw [hfin] at hE
        exact absurd hE (by decide)
      | some f =>
        rw [hfin] at hE
        exact datetimeStr_no_nl hE

theorem load_save_file {l : List Task} (h : ∀ t ∈ l, StorableTask t) :
    load_task_file (save_task_file l) = some l := by
  induction l with
  | nil => rfl
  | cons t ts ih =>
    obtain ⟨hp, hn, hs, hc, hf⟩ := h t (List.mem_cons_self t ts)
    have ih' := ih (fun u hu => h u (List.mem_cons_of_mem _ hu))
    have hline := from_string_to_string_nl hp hs hc hf
    have hcontent : save_task_file (t :: ts) =
        Task.to_string t ++ '\n' :: save_task_file ts := by
      simp [save_task_file, List.append_assoc]
    rw [load_task_file, hcontent, pyLines_append (to_string_no_nl hn hs), mapOrNone, hline]
    rw [load_task_file] at ih'
    rw [ih']

theorem load_save_tasks {m : TodoListManager} (h : ∀ t ∈ allTasks m, StorableTask t) :
    load_tasks (save_tasks m) =
      some (m.active_tasks, m.completed_tasks, m.deleted_tasks) := by
  have ha : ∀ t ∈ m.active_tasks, StorableTask t :=
    fun t ht => h t (by simp [allTasks, ht])
  have hc : ∀ t ∈ m.completed_tasks, StorableTask t :=
    fun t ht => h t (by simp [allTasks, ht])
  have hd : ∀ t ∈ m.deleted_tasks, StorableTask t :=
    fun t ht => h t (by simp [allTasks, ht])
  rw [load_tasks, save_tasks]
  simp [load_save_file ha, load_save_file hc, load_save_file hd]

/-! ### Helper lemmas: id permutations under the operations -/

theorem map_taskId_replaceFirstP (p : Task → Bool) (f : Task → Task)
    (hid : ∀ a, (f a).task_id = a.task_id) (l : List Task) :
    (replaceFirstP p f l).map Task.task_id = l.map Task.task_id := by
  induction l with
  | nil => rfl
  | cons x xs ih =>
    rw [replaceFirstP]
    split
    · simp [hid x]
    · simp [ih]

theorem ids_perm_of_find? {l : List Task} {tid : Int} {t : Task}
    (hfind : l.find? (fun u => u.task_id == tid) = some t) :
    List.Perm (l.map Task.task_id)
      (t.task_id :: (l.eraseP (fun u => u.task_id == tid)).map Task.task_id) := by
  have hmem := List.mem_of_find?_eq_some hfind
  have hpt : t.task_id = tid := by
    have hp := List.find?_some hfind
    exact beq_iff_eq.mp hp
  have hptrue : (fun u => u.task_id == tid) t = true := by
    have hp := hpt
    exact beq_iff_eq.mpr hp
  obtain ⟨a, l₁, l₂, hnp, hpa, hl, he⟩ :=
    @List.exists_of_eraseP Task (fun u => u.task_id == tid) l t hmem hptrue
  have hat : a.task_id = tid := by
    have hp := hpa
    exact beq_iff_eq.mp hp
  rw [he, hl]
  simp only [List.map_append, List.map_cons]
  have h1 : List.Perm (l₁.map Task.task_id ++ a.task_id :: l₂.map Task.task_id)
      (a.task_id :: (l₁.map Task.task_id ++ l₂.map Task.task_id)) := List.perm_middle
  rw [hat, ← hpt] at h1 ⊢
  exact h1

theorem find?_eraseP_none {l : List Task} {tid : Int} {t : Task}
    (hnodup : (l.map Task.task_id).Nodup)
    (hfind : l.find? (fun u => u.task_id == tid) = some t) :
    (l.eraseP (fun u => u.task_id == tid)).find? (fun u => u.task_id == tid) = none := by
  rw [List.find?_eq_none]
  intro x hx hpx
  have hpt : t.task_id = tid := by
    have hp := List.find?_some hfind
    exact beq_iff_eq.mp hp
  have hptrue : (fun u => u.task_id == tid) t = true := by
    have hp := hpt
    exact beq_iff_eq.mpr hp
  obtain ⟨a, l₁, l₂, hnp, hpa, hl, he⟩ :=
    @List.exists_of_eraseP Task (fun u => u.task_id == tid) l t
      (List.mem_of_find?_eq_some hfind) hptrue
  have hat : a.task_id = tid := by
    have hp := hpa
    exact beq_iff_eq.mp hp
  have hxid : x.task_id = tid := by
    have hp := hpx
    exact beq_iff_eq.mp hp
  rw [he] at hx
  rw [hl] at hnodup
  simp only [List.map_append, List.map_cons] at hnodup
  rcases List.mem_append.mp hx with hx1 | hx2
  · exact hnp x hx1 hpx
  · have hdup : a.task_id ∈ l₂.map Task.task_id := by
      rw [hat, ← hxid]
      exact List.mem_map_of_mem Task.task_id hx2
    have hnd2 : (a.task_id :: l₂.map Task.task_id).Nodup := hnodup.of_append_right
    exact (List.nodup_cons.mp hnd2).1 hdup

theorem perm_move_mid {E A C D : List Int} {x : Int} (h1 : List.Perm A (x :: E)) :
    List.Perm (E ++ (C ++ [x]) ++ D) (A ++ C ++ D) := by
  have s1 : List.Perm (E ++ (C ++ [x]) ++ D) (E ++ (x :: C) ++ D) :=
    ((List.perm_append_singleton x C).append_left E).append_right D
  have s2 : E ++ (x :: C) ++ D = E ++ x :: (C ++ D) := by
    simp [List.append_assoc]
  have s3 : List.Perm (E ++ x :: (C ++ D)) (x :: (E ++ (C ++ D))) := List.perm_middle
  have s4 : List.Perm (x :: (E ++ (C ++ D))) (A ++ (C ++ D)) := by
    have h2 := (h1.symm).append_right (C ++ D)
    simpa using h2
  have s5 : A ++ (C ++ D) = A ++ C ++ D := by simp [List.append_assoc]
  exact (((s2 ▸ s1).trans s3).trans s4).trans (s5 ▸ List.Perm.refl _)

theorem perm_move_last {E A C D : List Int} {x : Int} (h1 : List.Perm A (x :: E)) :
    List.Perm (E ++ C ++ (D ++ [x])) (A ++ C ++ D) := by
  have s1 : List.Perm (E ++ C ++ (D ++ [x])) (E ++ C ++ (x :: D)) :=
    (List.perm_append_singleton x D).append_left (E ++ C)
  have s3 : List.Perm (E ++ C ++ (x :: D)) (x :: (E ++ C ++ D)) := List.perm_middle
  have s4 : List.Perm (x :: (E ++ C ++ D)) (A ++ C ++ D) := by
    have h2 := (h1.symm).append_right (C ++ D)
    simpa [List.append_assoc] using h2
  exact (s1.trans s3).trans s4

/-! ### Helper lemmas: the id discipline is preserved by every operation -/

theorem goodIds_of_eq {m m2 : TodoListManager} (h : GoodIds m)
    (hids : idsOf m2 = idsOf m) (hnext : m2.next_task_id = m.next_task_id) :
    GoodIds m2 := by
  obtain ⟨hnd, hbd⟩ := h
  refine ⟨hids ▸ hnd, fun i hi => ?_⟩
  rw [hnext]
  exact hbd i (hids ▸ hi)

theorem goodIds_of_perm {m m2 : TodoListManager} (h : GoodIds m)
    (hids : List.Perm (idsOf m2) (idsOf m)) (hnext : m2.next_task_id = m.next_task_id) :
    GoodIds m2 := by
  obtain ⟨hnd, hbd⟩ := h
  refine ⟨hids.symm.nodup hnd, fun i hi => ?_⟩
  rw [hnext]
  exact hbd i (hids.mem_iff.mp hi)

theorem goodIds_add {m : TodoListManager} (fs : FileSystem) (nameInput : List Char)
    (now : PyDateTime) (h : GoodIds m) : GoodIds (add_task m fs nameInput now).1 := by
  obtain ⟨hnd, hbd⟩ := h
  have hperm : List.Perm (idsOf (add_task m fs nameInput now).1)
      (m.next_task_id :: idsOf m) := by
    simp only [add_task, idsOf, allTasks, List.map_append, List.map_cons, List.map_nil,
      List.append_assoc, List.cons_append, List.nil_append, List.singleton_append]
    exact List.perm_middle
  constructor
  · refine hperm.symm.nodup (List.nodup_cons.mpr ⟨fun hmem => ?_, hnd⟩)
    exact absurd (hbd _ hmem) (lt_irrefl _)
  · intro i hi
    have hm := hperm.mem_iff.mp hi
    have hnext : (add_task m fs nameInput now).1.next_task_id = m.next_task_id + 1 := rfl
    rw [hnext]
    rcases List.mem_cons.mp hm with rfl | hm2
    · omega
    · have := hbd i hm2
      omega

theorem goodIds_rename {m : TodoListManager} (fs : FileSystem)
    (idInput newNameInput : List Char) (h : GoodIds m) :
    GoodIds (edit_task_name m fs idInput newNameInput).1.1 := by
  rw [edit_task_name]
  by_cases he : m.active_tasks.isEmpty
  · rw [if_pos he]
    exact h
  · rw [if_neg he]
    cases hp : pyInt idInput with
    | none => exact h
    | some tid =>
      dsimp only
      cases hf : m.active_tasks.find? (fun t => t.task_id == tid) with
      | none => exact h
      | some t =>
        refine goodIds_of_eq h ?_ rfl
        have hmap := map_taskId_replaceFirstP (fun u => u.task_id == tid)
          (fun u => { u with task_name := pyStrip newNameInput })
          (fun a => rfl) m.active_tasks
        simp [idsOf, allTasks, hmap]

theorem goodIds_complete {m : TodoListManager} (fs : FileSystem)
    (idInput : List Char) (now : PyDateTime) (h : GoodIds m) :
    GoodIds (mark_task_complete m fs idInput now).1.1 := by
  rw [mark_task_complete]
  by_cases he : m.active_tasks.isEmpty
  · rw [if_pos he]
    exact h
  · rw [if_neg he]
    cases hp : pyInt idInput with
    | none => exact h
    | some tid =>
      dsimp only
      cases hf : m.active_tasks.find? (fun t => t.task_id == tid) with
      | none => exact h
      | some t =>
        refine goodIds_of_perm h ?_ rfl
        have h1 := ids_perm_of_find? hf
        simpa [idsOf, allTasks] using perm_move_mid h1

theorem goodIds_delete {m : TodoListManager} (fs : FileSystem)
    (idInput : List Char) (h : GoodIds m) :
    GoodIds (delete_task m fs idInput).1.1 := by
  rw [delete_task]
  by_cases he : m.active_tasks.isEmpty
  · rw [if_pos he]
    exact h
  · rw [if_neg he]
    cases hp : pyInt idInput with
    | none => exact h
    | some tid =>
      dsimp only
      cases hf : m.active_tasks.find? (fun t => t.task_id == tid) with
      | none => exact h
      | some t =>
        refine goodIds_of_perm h ?_ rfl
        have h1 := ids_perm_of_find? hf
        simpa [idsOf, allTasks] using perm_move_last h1

theorem goodIds_applyOp {s : TodoListManager × FileSystem} (op : Op)
    (h : GoodIds s.1) : GoodIds (applyOp s op).1 := by
  cases op with
  | addOp n now => exact goodIds_add s.2 n now h
  | renameOp i n => exact goodIds_rename s.2 i n h
  | completeOp i now => exact goodIds_complete s.2 i now h
  | deleteOp i => exact goodIds_delete s.2 i h

theorem goodIds_applyOps {s : TodoListManager × FileSystem} (ops : List Op)
    (h : GoodIds s.1) : GoodIds (applyOps s ops).1 := by
  induction ops generalizing s with
  | nil => exact h
  | cons op ops ih => exact ih (goodIds_applyOp op h)

/-! ### Helper lemmas: fold-based maximum -/

theorem le_foldl_max (l : List Int) (a : Int) : a ≤ l.foldl max a := by
  induction l generalizing a with
  | nil => exact le_refl a
  | cons x xs ih =>
    rw [List.foldl_cons]
    exact le_trans (le_max_left a x) (ih (max a x))

theorem mem_le_foldl_max {l : List Int} {y : Int} (hy : y ∈ l) (a : Int) :
    y ≤ l.foldl max a := by
  induction l generalizing a with
  | nil => cases hy
  | cons x xs ih =>
    rw [List.foldl_cons]
    rcases List.mem_cons.mp hy with rfl | hy2
    · exact le_trans (le_max_right a y) (le_foldl_max xs (max a y))
    · exact ih hy2 (max a x)

theorem foldl_max_mem (l : List Int) (a : Int) :
    l.foldl max a = a ∨ l.foldl max a ∈ l := by
  induction l generalizing a with
  | nil => exact Or.inl rfl
  | cons x xs ih =>
    rw [List.foldl_cons]
    rcases ih (max a x) with h | h
    · rcases max_choice a x with he | he
      · exact Or.inl (by rw [h, he])
      · exact Or.inr (by rw [h, he]; exact List.mem_cons_self x xs)
    · exact Or.inr (List.mem_cons_of_mem x h)

theorem maxIds_mem {l : List Int} (h : l ≠ []) : maxIds l ∈ l := by
  cases l with
  | nil => exact absurd rfl h
  | cons x xs =>
    rw [maxIds]
    rcases foldl_max_mem xs x with he | hm
    · rw [he]
      exact List.mem_cons_self x xs
    · exact List.mem_cons_of_mem x hm

theorem le_maxIds {l : List Int} {y : Int} (hy : y ∈ l) : y ≤ maxIds l := by
  cases l with
  | nil => cases hy
  | cons x xs =>
    rw [maxIds]
    rcases List.mem_cons.mp hy with rfl | hy2
    · exact le_foldl_max xs y
    · exact mem_le_foldl_max hy2 x

/-! ### Helper lemmas: explicit result of a successful complete and delete -/

theorem complete_success_state {m : TodoListManager} {fs : FileSystem}
    {idInput : List Char} {tid : Int} {t : Task} (now : PyDateTime)
    (hparse : pyInt idInput = some tid)
    (hfind : m.active_tasks.find? (fun u => u.task_id == tid) = some t) :
    mark_task_complete m fs idInput now =
      ((TodoListManager.mk
          (m.active_tasks.eraseP (fun u => u.task_id == tid))
          (m.completed_tasks ++
            [Task.mk t.task_id t.task_name statusCompleted t.time_created (some now)])
          m.deleted_tasks m.user_name m.next_task_id,
        save_tasks (TodoListManager.mk
          (m.active_tasks.eraseP (fun u => u.task_id == tid))
          (m.completed_tasks ++
            [Task.mk t.task_id t.task_name statusCompleted t.time_created (some now)])
          m.deleted_tasks m.user_name m.next_task_id)),
        Outcome.success) := by
  have hne : m.active_tasks ≠ [] := List.ne_nil_of_mem (List.mem_of_find?_eq_some hfind)
  rw [mark_task_complete, if_neg (by simp [List.isEmpty_iff, hne]), hparse]
  dsimp only
  rw [hfind]

theorem delete_success_state {m : TodoListManager} {fs : FileSystem}
    {idInput : List Char} {tid : Int} {t : Task}
    (hparse : pyInt idInput = some tid)
    (hfind : m.active_tasks.find? (fun u => u.task_id == tid) = some t) :
    delete_task m fs idInput =
      ((TodoListManager.mk
          (m.active_tasks.eraseP (fun u => u.task_id == tid))
          m.completed_tasks
          (m.deleted_tasks ++
            [Task.mk t.task_id t.task_name statusDeleted t.time_created t.time_finished])
          m.user_name m.next_task_id,
        save_tasks (TodoListManager.mk
          (m.active_tasks.eraseP (fun u => u.task_id == tid))
          m.completed_tasks
          (m.deleted_tasks ++
            [Task.mk t.task_id t.task_name statusDeleted t.time_created t.time_finished])
          m.user_name m.next_task_id)),
        Outcome.success) := by
  have hne : m.active_tasks ≠ [] := List.ne_nil_of_mem (List.mem_of_find?_eq_some hfind)
  rw [delete_task, if_neg (by simp [List.isEmpty_iff, hne]), hparse]
  dsimp only
  rw [hfind]

/-! ### The claims -/

/-- Claim C1: for every valid task whose name contains neither the pipe
delimiter nor a newline, decoding the encoded line reproduces the task
exactly, field for field, with an absent `finished_at` rendered as and
recovered from the literal token `None`. -/
theorem C1_roundtrip (t : Task) (hpipe : '|' ∉ t.task_name)
    (_hnl : '\n' ∉ t.task_name)
    (hstat : t.task_status = statusActive ∨ t.task_status = statusCompleted ∨
      t.task_status = statusDeleted)
    (hcr : ValidDT t.time_created)
    (hfin : ∀ f ∈ t.time_finished, ValidDT f) :
    Task.from_string (Task.to_string t) = some t :=
  from_string_to_string hpipe hstat hcr hfin

/-- Witness for C1 at a concrete task. -/
theorem C1_roundtrip_witness :
    Task.from_string (Task.to_string (Task.mk 1 "Buy milk".toList statusActive
      (PyDateTime.mk 2024 5 17 12 30 45 123456) none)) =
    some (Task.mk 1 "Buy milk".toList statusActive
      (PyDateTime.mk 2024 5 17 12 30 45 123456) none) :=
  C1_roundtrip _ (by decide) (by decide) (Or.inl rfl) (by decide)
    (by intro f hf; cases hf)

/-- Claim C2 (amended): for every store and every id present in the active
sequence, completing that id succeeds: the task's status becomes
`Completed`, its `finished_at` becomes the current time (at or after its
`created_at` whenever the clock has not moved backwards since creation),
it is removed from the active sequence and appended to the completed
sequence with id, name and `created_at` unchanged.  When the active
sequence is nonempty and the id is absent, the operation reports
NotFound and changes nothing.  (On an empty active sequence the source
returns silently instead of reporting NotFound — see the
counterexample.) -/
theorem C2_complete (m : TodoListManager) (fs : FileSystem) (idInput : List Char)
    (tid : Int) (now : PyDateTime) (hparse : pyInt idInput = some tid) :
    (∀ t, m.active_tasks.find? (fun u => u.task_id == tid) = some t →
      PyDateTime.le t.time_created now →
      ((mark_task_complete m fs idInput now).2 = Outcome.success ∧
       (mark_task_complete m fs idInput now).1.1.active_tasks =
         m.active_tasks.eraseP (fun u => u.task_id == tid) ∧
       (mark_task_complete m fs idInput now).1.1.completed_tasks =
         m.completed_tasks ++
           [Task.mk t.task_id t.task_name statusCompleted t.time_created (some now)] ∧
       (mark_task_complete m fs idInput now).1.1.deleted_tasks = m.deleted_tasks ∧
       PyDateTime.le t.time_created now)) ∧
    (m.active_tasks ≠ [] →
      m.active_tasks.find? (fun u => u.task_id == tid) = none →
      mark_task_complete m fs idInput now = ((m, fs), Outcome.notFound)) := by
  constructor
  · intro t hfind hle
    rw [complete_success_state now hparse hfind]
    exact ⟨rfl, rfl, rfl, rfl, hle⟩
  · intro hne hnone
    rw [mark_task_complete, if_neg (by simp [List.isEmpty_iff, hne]), hparse]
    dsimp only
    rw [hnone]

/-- Witness for C2 on a one-task store. -/
theorem C2_complete_witness :
    (mark_task_complete
      (TodoListManager.mk
        [Task.mk 1 "a".toList statusActive (PyDateTime.mk 2024 1 1 0 0 0 0) none]
        [] [] [] 2)
      (FileSystem.mk [] [] []) "1".toList (PyDateTime.mk 2024 1 2 0 0 0 0)).2 =
      Outcome.success :=
  ((C2_complete
      (TodoListManager.mk
        [Task.mk 1 "a".toList statusActive (PyDateTime.mk 2024 1 1 0 0 0 0) none]
        [] [] [] 2)
      (FileSystem.mk [] [] []) "1".toList 1 (PyDateTime.mk 2024 1 2 0 0 0 0)
      (by decide)).1
    (Task.mk 1 "a".toList statusActive (PyDateTime.mk 2024 1 1 0 0 0 0) none)
    (by decide) (by decide)).1

/-- Counterexample to C2 as stated: on a store whose active sequence is
empty the requested id is absent, yet `mark_task_complete` returns
silently instead of reporting NotFound. -/
theorem C2_counterexample :
    (mark_task_complete (TodoListManager.mk [] [] [] [] 1) (FileSystem.mk [] [] [])
        "1".toList (PyDateTime.mk 2024 1 1 0 0 0 0)).2 = Outcome.emptyReturn ∧
    Outcome.emptyReturn ≠ Outcome.notFound := by
  decide

/-- Claim C3: starting from a store with pairwise-distinct ids all below
the next-id counter, any sequence of documented operations leaves the
ids across the union of the three sequences pairwise distinct. -/
theorem C3_unique_ids (m : TodoListManager) (fs : FileSystem) (ops : List Op)
    (h : GoodIds m) : (idsOf (applyOps (m, fs) ops).1).Nodup :=
  (goodIds_applyOps ops h).1

/-- Witness for C3: three operations on the freshly constructed store. -/
theorem C3_unique_ids_witness :
    (idsOf (applyOps (TodoListManager.mk [] [] [] [] 1, FileSystem.mk [] [] [])
      [Op.addOp "a".toList (PyDateTime.mk 2024 1 1 0 0 0 0),
       Op.addOp "b".toList (PyDateTime.mk 2024 1 1 0 0 0 0),
       Op.completeOp "1".toList (PyDateTime.mk 2024 1 2 0 0 0 0)]).1).Nodup :=
  C3_unique_ids _ _ _ (by decide)

/-- Claim C4 (amended): save followed by load reproduces the three task
sequences exactly, provided every stored task is storable — in
particular its name contains no pipe and no newline.  The unamended
claim fails because a reachable store can hold a name containing the
delimiter — see the counterexample. -/
theorem C4_save_load (m : TodoListManager)
    (h : ∀ t ∈ allTasks m, StorableTask t) :
    load_tasks (save_tasks m) =
      some (m.active_tasks, m.completed_tasks, m.deleted_tasks) :=
  load_save_tasks h

/-- Witness for C4 on a store with one active and one completed task. -/
theorem C4_save_load_witness :
    load_tasks (save_tasks (TodoListManager.mk
      [Task.mk 1 "Buy milk".toList statusActive (PyDateTime.mk 2024 1 1 9 0 0 0) none]
      [Task.mk 2 "Pay rent".toList statusCompleted (PyDateTime.mk 2024 1 1 9 5 0 0)
        (some (PyDateTime.mk 2024 1 2 10 0 0 500))]
      [] "u".toList 3)) =
    some ([Task.mk 1 "Buy milk".toList statusActive (PyDateTime.mk 2024 1 1 9 0 0 0) none],
      [Task.mk 2 "Pay rent".toList statusCompleted (PyDateTime.mk 2024 1 1 9 5 0 0)
        (some (PyDateTime.mk 2024 1 2 10 0 0 500))],
      []) :=
  C4_save_load _ (by decide)

/-- Counterexample to C4 as stated: the store reached from the fresh store
by a single `add_task` whose entered name is `a|b` is reachable through
the documented operations, but saving and loading it does not reproduce
it — the load fails on the six-field line. -/
theorem C4_counterexample :
    load_tasks (save_tasks (add_task (TodoListManager.mk [] [] [] [] 1)
        (FileSystem.mk [] [] []) "a|b".toList (PyDateTime.mk 2024 1 1 0 0 0 0)).1) ≠
      some ((add_task (TodoListManager.mk [] [] [] [] 1)
        (FileSystem.mk [] [] []) "a|b".toList (PyDateTime.mk 2024 1 1 0 0 0 0)).1.active_tasks,
        (add_task (TodoListManager.mk [] [] [] [] 1)
          (FileSystem.mk [] [] []) "a|b".toList
            (PyDateTime.mk 2024 1 1 0 0 0 0)).1.completed_tasks,
        (add_task (TodoListManager.mk [] [] [] [] 1)
          (FileSystem.mk [] [] []) "a|b".toList
            (PyDateTime.mk 2024 1 1 0 0 0 0)).1.deleted_tasks) := by
  decide

/-- Claim C5: `add_task` appends to the end of the active sequence a task
whose id is the store's current next-id, whose status is Active, whose
`created_at` is the current time and whose `finished_at` is absent,
leaves the completed and deleted sequences unchanged, and increments the
next-id by one; on an empty store with next-id 1 the result is a single
active task with id 1. -/
theorem C5_add (m : TodoListManager) (fs : FileSystem) (nameInput : List Char)
    (now : PyDateTime) :
    (add_task m fs nameInput now).1.active_tasks =
      m.active_tasks ++ [Task.mk m.next_task_id (pyStrip nameInput) statusActive now none] ∧
    (add_task m fs nameInput now).1.completed_tasks = m.completed_tasks ∧
    (add_task m fs nameInput now).1.deleted_tasks = m.deleted_tasks ∧
    (add_task m fs nameInput now).1.next_task_id = m.next_task_id + 1 ∧
    (m.active_tasks = [] → m.next_task_id = 1 →
      (add_task m fs nameInput now).1.active_tasks =
        [Task.mk 1 (pyStrip nameInput) statusActive now none]) := by
  refine ⟨rfl, rfl, rfl, rfl, ?_⟩
  intro h1 h4
  simp [add_task, h1, h4]

/-- Witness for C5 on the fresh store. -/
theorem C5_add_witness :
    (add_task (TodoListManager.mk [] [] [] [] 1) (FileSystem.mk [] [] [])
      "Buy milk".toList (PyDateTime.mk 2024 1 1 0 0 0 0)).1.active_tasks =
    [Task.mk 1 (pyStrip "Buy milk".toList) statusActive
      (PyDateTime.mk 2024 1 1 0 0 0 0) none] :=
  (C5_add (TodoListManager.mk [] [] [] [] 1) (FileSystem.mk [] [] [])
    "Buy milk".toList (PyDateTime.mk 2024 1 1 0 0 0 0)).2.2.2.2 rfl rfl

/-- Claim C6 (amended): for every store and every id present in the active
sequence, deleting that id succeeds: the task's status becomes
`Deleted`, it is removed from the active sequence and appended to the
deleted sequence, and its `finished_at` (like its id, name and
`created_at`) is left unchanged — in particular a never-completed task
keeps `finished_at = None`.  When the active sequence is nonempty and
the id is absent, the operation reports NotFound and changes nothing.
(On an empty active sequence the source returns silently instead of
reporting NotFound — see the counterexample.) -/
theorem C6_delete (m : TodoListManager) (fs : FileSystem) (idInput : List Char)
    (tid : Int) (hparse : pyInt idInput = some tid) :
    (∀ t, m.active_tasks.find? (fun u => u.task_id == tid) = some t →
      ((delete_task m fs idInput).2 = Outcome.success ∧
       (delete_task m fs idInput).1.1.active_tasks =
         m.active_tasks.eraseP (fun u => u.task_id == tid) ∧
       (delete_task m fs idInput).1.1.deleted_tasks =
         m.deleted_tasks ++
           [Task.mk t.task_id t.task_name statusDeleted t.time_created t.time_finished] ∧
       (delete_task m fs idInput).1.1.completed_tasks = m.completed_tasks ∧
       (Task.mk t.task_id t.task_name statusDeleted t.time_created
         t.time_finished).time_finished = t.time_finished)) ∧
    (m.active_tasks ≠ [] →
      m.active_tasks.find? (fun u => u.task_id == tid) = none →
      delete_task m fs idInput = ((m, fs), Outcome.notFound)) := by
  constructor
  · intro t hfind
    rw [delete_success_state hparse hfind]
    exact ⟨rfl, rfl, rfl, rfl, rfl⟩
  · intro hne hnone
    rw [delete_task, if_neg (by simp [List.isEmpty_iff, hne]), hparse]
    dsimp only
    rw [hnone]

/-- Witness for C6 on a one-task store. -/
theorem C6_delete_witness :
    (delete_task
      (TodoListManager.mk
        [Task.mk 1 "a".toList statusActive (PyDateTime.mk 2024 1 1 0 0 0 0) none]
        [] [] [] 2)
      (FileSystem.mk [] [] []) "1".toList).2 = Outcome.success :=
  ((C6_delete
      (TodoListManager.mk
        [Task.mk 1 "a".toList statusActive (PyDateTime.mk 2024 1 1 0 0 0 0) none]
        [] [] [] 2)
      (FileSystem.mk [] [] []) "1".toList 1 (by decide)).1
    (Task.mk 1 "a".toList statusActive (PyDateTime.mk 2024 1 1 0 0 0 0) none)
    (by decide)).1

/-- Counterexample to C6 as stated: on a store whose active sequence is
empty the requested id is absent, yet `delete_task` returns silently
instead of reporting NotFound. -/
theorem C6_counterexample :
    (delete_task (TodoListManager.mk [] [] [] [] 1) (FileSystem.mk [] [] [])
        "1".toList).2 = Outcome.emptyReturn ∧
    Outcome.emptyReturn ≠ Outcome.notFound := by
  decide

/-- Claim C7 (amended): when the active sequence is nonempty, the entered
id parses, and no active task carries it, `edit_task_name` reports
NotFound and returns the store and the files unchanged — no list is
mutated and no save occurs.  (On an empty active sequence the source
returns silently instead of reporting NotFound — see the
counterexample.) -/
theorem C7_rename_notfound (m : TodoListManager) (fs : FileSystem)
    (idInput newNameInput : List Char) (tid : Int)
    (hne : m.active_tasks ≠ []) (hparse : pyInt idInput = some tid)
    (hnone : m.active_tasks.find? (fun u => u.task_id == tid) = none) :
    edit_task_name m fs idInput newNameInput = ((m, fs), Outcome.notFound) := by
  rw [edit_task_name, if_neg (by simp [List.isEmpty_iff, hne]), hparse]
  dsimp only
  rw [hnone]

/-- Witness for C7: id 999 on a store holding only id 1. -/
theorem C7_rename_notfound_witness :
    edit_task_name
      (TodoListManager.mk
        [Task.mk 1 "a".toList statusActive (PyDateTime.mk 2024 1 1 0 0 0 0) none]
        [] [] [] 2)
      (FileSystem.mk [] [] []) "999".toList "x".toList =
      ((TodoListManager.mk
        [Task.mk 1 "a".toList statusActive (PyDateTime.mk 2024 1 1 0 0 0 0) none]
        [] [] [] 2, FileSystem.mk [] [] []), Outcome.notFound) :=
  C7_rename_notfound _ _ _ _ 999 (by decide) (by decide) (by decide)

/-- Counterexample to C7 as stated: on a store with an empty active
sequence no active task has id 999, yet `edit_task_name` returns
silently instead of reporting NotFound. -/
theorem C7_counterexample :
    (edit_task_name (TodoListManager.mk [] [] [] [] 1) (FileSystem.mk [] [] [])
        "999".toList "x".toList).2 = Outcome.emptyReturn ∧
    Outcome.emptyReturn ≠ Outcome.notFound := by
  decide

/-- Claim C8: `update_next_task_id` (run right after every load) sets the
next-id to 1 when the three sequences are all empty, and otherwise to
1 plus the maximum id over their union. -/
theorem C8_next_id (m : TodoListManager) :
    (allTasks m = [] → (update_next_task_id m).next_task_id = 1) ∧
    (allTasks m ≠ [] → ∃ x, x ∈ idsOf m ∧ (∀ y ∈ idsOf m, y ≤ x) ∧
      (update_next_task_id m).next_task_id = 1 + x) := by
  constructor
  · intro he
    have he' : m.active_tasks ++ m.completed_tasks ++ m.deleted_tasks = [] := he
    simp [update_next_task_id, he']
  · intro hne
    have hne' : m.active_tasks ++ m.completed_tasks ++ m.deleted_tasks ≠ [] := hne
    have hids : idsOf m ≠ [] := by
      intro he
      exact hne' (List.map_eq_nil_iff.mp he)
    refine ⟨maxIds (idsOf m), maxIds_mem hids, fun y hy => le_maxIds hy, ?_⟩
    have hif : (m.active_tasks ++ m.completed_tasks ++ m.deleted_tasks).isEmpty = false := by
      rcases List.exists_cons_of_ne_nil hne' with ⟨x, xs, hxx⟩
      rw [hxx]
      rfl
    simp only [update_next_task_id, hif, Bool.false_eq_true, if_false]
    have hsame : idsOf m =
        (m.active_tasks ++ m.completed_tasks ++ m.deleted_tasks).map Task.task_id := rfl
    show maxIds ((m.active_tasks ++ m.completed_tasks ++ m.deleted_tasks).map Task.task_id)
      + 1 = 1 + maxIds (idsOf m)
    rw [← hsame]
    omega

/-- Witness for C8 on a store with ids 3, 7 and 5 across the three
sequences. -/
theorem C8_next_id_witness :
    ∃ x, x ∈ idsOf (TodoListManager.mk
        [Task.mk 3 "a".toList statusActive (PyDateTime.mk 2024 1 1 0 0 0 0) none]
        [Task.mk 7 "b".toList statusCompleted (PyDateTime.mk 2024 1 1 0 0 0 0)
          (some (PyDateTime.mk 2024 1 1 1 0 0 0))]
        [Task.mk 5 "c".toList statusDeleted (PyDateTime.mk 2024 1 1 0 0 0 0) none]
        [] 1) ∧
      (∀ y ∈ idsOf (TodoListManager.mk
        [Task.mk 3 "a".toList statusActive (PyDateTime.mk 2024 1 1 0 0 0 0) none]
        [Task.mk 7 "b".toList statusCompleted (PyDateTime.mk 2024 1 1 0 0 0 0)
          (some (PyDateTime.mk 2024 1 1 1 0 0 0))]
        [Task.mk 5 "c".toList statusDeleted (PyDateTime.mk 2024 1 1 0 0 0 0) none]
        [] 1), y ≤ x) ∧
      (update_next_task_id (TodoListManager.mk
        [Task.mk 3 "a".toList statusActive (PyDateTime.mk 2024 1 1 0 0 0 0) none]
        [Task.mk 7 "b".toList statusCompleted (PyDateTime.mk 2024 1 1 0 0 0 0)
          (some (PyDateTime.mk 2024 1 1 1 0 0 0))]
        [Task.mk 5 "c".toList statusDeleted (PyDateTime.mk 2024 1 1 0 0 0 0) none]
        [] 1)).next_task_id = 1 + x :=
  (C8_next_id _).2 (by decide)

/-- Claim C9 (amended): rename, complete and delete search only the active
sequence, so once `mark_task_complete` has moved a task out of it (ids
being unique in the active sequence), a subsequent rename or delete with
the same id no longer finds it: it reports NotFound when other active
tasks remain, and returns silently when the active sequence became empty
— the unamended claim promised NotFound in both situations, but the
empty case returns silently (see the counterexample). -/
theorem C9_after_complete (m : TodoListManager) (fs : FileSystem)
    (idInput newNameInput : List Char) (tid : Int) (now : PyDateTime) (t : Task)
    (hnd : (m.active_tasks.map Task.task_id).Nodup)
    (hparse : pyInt idInput = some tid)
    (hfind : m.active_tasks.find? (fun u => u.task_id == tid) = some t) :
    ((mark_task_complete m fs idInput now).1.1.active_tasks ≠ [] →
      (edit_task_name (mark_task_complete m fs idInput now).1.1
        (mark_task_complete m fs idInput now).1.2 idInput newNameInput).2 =
          Outcome.notFound ∧
      (delete_task (mark_task_complete m fs idInput now).1.1
        (mark_task_complete m fs idInput now).1.2 idInput).2 = Outcome.notFound) ∧
    ((mark_task_complete m fs idInput now).1.1.active_tasks = [] →
      (edit_task_name (mark_task_complete m fs idInput now).1.1
        (mark_task_complete m fs idInput now).1.2 idInput newNameInput).2 =
          Outcome.emptyReturn ∧
      (delete_task (mark_task_complete m fs idInput now).1.1
        (mark_task_complete m fs idInput now).1.2 idInput).2 =
          Outcome.emptyReturn) := by
  have hstate := @complete_success_state m fs idInput tid t now hparse hfind
  have hact : (mark_task_complete m fs idInput now).1.1.active_tasks =
      m.active_tasks.eraseP (fun u => u.task_id == tid) := by
    rw [hstate]
  have hfind2 : (mark_task_complete m fs idInput now).1.1.active_tasks.find?
      (fun u => u.task_id == tid) = none := by
    rw [hact]
    exact find?_eraseP_none hnd hfind
  constructor
  · intro hne
    constructor
    · rw [edit_task_name, if_neg (by simp [List.isEmpty_iff, hne]), hparse]
      dsimp only
      rw [hfind2]
    · rw [delete_task, if_neg (by simp [List.isEmpty_iff, hne]), hparse]
      dsimp only
      rw [hfind2]
  · intro he
    constructor
    · rw [edit_task_name, if_pos (by simp [List.isEmpty_iff, he])]
    · rw [delete_task, if_pos (by simp [List.isEmpty_iff, he])]

/-- Witness for C9 on a two-task store: after completing id 1, renaming
and deleting id 1 report NotFound. -/
theorem C9_after_complete_witness :
    (edit_task_name
      (mark_task_complete (TodoListManager.mk
        [Task.mk 1 "a".toList statusActive (PyDateTime.mk 2024 1 1 0 0 0 0) none,
         Task.mk 2 "b".toList statusActive (PyDateTime.mk 2024 1 1 0 0 0 0) none]
        [] [] [] 3) (FileSystem.mk [] [] []) "1".toList
        (PyDateTime.mk 2024 1 2 0 0 0 0)).1.1
      (mark_task_complete (TodoListManager.mk
        [Task.mk 1 "a".toList statusActive (PyDateTime.mk 2024 1 1 0 0 0 0) none,
         Task.mk 2 "b".toList statusActive (PyDateTime.mk 2024 1 1 0 0 0 0) none]
        [] [] [] 3) (FileSystem.mk [] [] []) "1".toList
        (PyDateTime.mk 2024 1 2 0 0 0 0)).1.2 "1".toList "x".toList).2 =
      Outcome.notFound :=
  ((C9_after_complete (TodoListManager.mk
      [Task.mk 1 "a".toList statusActive (PyDateTime.mk 2024 1 1 0 0 0 0) none,
       Task.mk 2 "b".toList statusActive (PyDateTime.mk 2024 1 1 0 0 0 0) none]
      [] [] [] 3) (FileSystem.mk [] [] []) "1".toList "x".toList 1
      (PyDateTime.mk 2024 1 2 0 0 0 0)
      (Task.mk 1 "a".toList statusActive (PyDateTime.mk 2024 1 1 0 0 0 0) none)
      (by decide) (by decide) (by decide)).1 (by decide)).1

/-- Counterexample to C9 as stated: on a one-task store, after completing
id 1 the active sequence is empty, and renaming id 1 returns silently
instead of reporting NotFound. -/
theorem C9_counterexample :
    (edit_task_name
      (mark_task_complete (TodoListManager.mk
        [Task.mk 1 "a".toList statusActive (PyDateTime.mk 2024 1 1 0 0 0 0) none]
        [] [] [] 2) (FileSystem.mk [] [] []) "1".toList
        (PyDateTime.mk 2024 1 2 0 0 0 0)).1.1
      (mark_task_complete (TodoListManager.mk
        [Task.mk 1 "a".toList statusActive (PyDateTime.mk 2024 1 1 0 0 0 0) none]
        [] [] [] 2) (FileSystem.mk [] [] []) "1".toList
        (PyDateTime.mk 2024 1 2 0 0 0 0)).1.2 "1".toList "x".toList).2 =
      Outcome.emptyReturn ∧
    Outcome.emptyReturn ≠ Outcome.notFound := by
  decide

/-- Claim C10: on a store whose active sequence is empty, each of rename,
complete and delete returns right after the empty-list display — for
any entered id or name, the store and the files are unchanged and no
NotFound or InvalidInput (nor success) is reported. -/
theorem C10_empty_silent (m : TodoListManager) (fs : FileSystem)
    (idInput newNameInput : List Char) (now : PyDateTime)
    (h : m.active_tasks = []) :
    edit_task_name m fs idInput newNameInput = ((m, fs), Outcome.emptyReturn) ∧
    mark_task_complete m fs idInput now = ((m, fs), Outcome.emptyReturn) ∧
    delete_task m fs idInput = ((m, fs), Outcome.emptyReturn) ∧
    Outcome.emptyReturn ≠ Outcome.notFound ∧
    Outcome.emptyReturn ≠ Outcome.invalidInput ∧
    Outcome.emptyReturn ≠ Outcome.success := by
  refine ⟨?_, ?_, ?_, by decide, by decide, by decide⟩
  · rw [edit_task_name, if_pos (by simp [List.isEmpty_iff, h])]
  · rw [mark_task_complete, if_pos (by simp [List.isEmpty_iff, h])]
  · rw [delete_task, if_pos (by simp [List.isEmpty_iff, h])]

/-- Witness for C10 on the fresh store. -/
theorem C10_empty_silent_witness :
    edit_task_name (TodoListManager.mk [] [] [] [] 1) (FileSystem.mk [] [] [])
      "7".toList "x".toList =
      ((TodoListManager.mk [] [] [] [] 1, FileSystem.mk [] [] []),
        Outcome.emptyReturn) :=
  (C10_empty_silent (TodoListManager.mk [] [] [] [] 1) (FileSystem.mk [] [] [])
    "7".toList "x".toList (PyDateTime.mk 2024 1 1 0 0 0 0) rfl).1

end Todo
